import Mathlib

/-!
Shallow embedding of src/preprocess.py (LinkedIn post preprocessor).

The program enriches a JSON batch of posts with LLM-derived metadata
(line_count, language, tags), unifies the tag vocabulary with a second
LLM call, and writes the result.  External collaborators (the LLM, the
langchain JsonOutputParser, json.load and the text codecs) are modelled
as function parameters bundled in an environment structure; the repo's
own control flow and data manipulation are translated directly.
-/

set_option autoImplicit false

/-- A JSON value, as produced by json.load / JsonOutputParser.parse. -/
inductive Json where
  | str (s : String)
  | num (n : Int)
  | bool (b : Bool)
  | null
  | arr (xs : List Json)
  | obj (fs : List (String × Json))

mutual

/-- Boolean equality on JSON values. -/
def jsonBeq : Json → Json → Bool
  | Json.str a, Json.str b => a == b
  | Json.num a, Json.num b => a == b
  | Json.bool a, Json.bool b => a == b
  | Json.null, Json.null => true
  | Json.arr as, Json.arr bs => jsonListBeq as bs
  | Json.obj fs, Json.obj gs => jsonObjBeq fs gs
  | _, _ => false

/-- Boolean equality on lists of JSON values. -/
def jsonListBeq : List Json → List Json → Bool
  | [], [] => true
  | a :: as, b :: bs => jsonBeq a b && jsonListBeq as bs
  | _, _ => false

/-- Boolean equality on JSON object field lists. -/
def jsonObjBeq : List (String × Json) → List (String × Json) → Bool
  | [], [] => true
  | (k1, v1) :: as, (k2, v2) :: bs => k1 == k2 && jsonBeq v1 v2 && jsonObjBeq as bs
  | _, _ => false

end

mutual

/-- jsonBeq decides equality. -/
theorem jsonBeq_iff : ∀ a b : Json, jsonBeq a b = true ↔ a = b
  | Json.str a, Json.str b => by simp [jsonBeq]
  | Json.num a, Json.num b => by simp [jsonBeq]
  | Json.bool a, Json.bool b => by simp [jsonBeq]
  | Json.null, Json.null => by simp [jsonBeq]
  | Json.arr as, Json.arr bs => by
      simp [jsonBeq, jsonListBeq_iff as bs]
  | Json.obj fs, Json.obj gs => by
      simp [jsonBeq, jsonObjBeq_iff fs gs]
  | Json.str a, Json.num b => by simp [jsonBeq]
  | Json.str a, Json.bool b => by simp [jsonBeq]
  | Json.str a, Json.null => by simp [jsonBeq]
  | Json.str a, Json.arr bs => by simp [jsonBeq]
  | Json.str a, Json.obj bs => by simp [jsonBeq]
  | Json.num a, Json.str b => by simp [jsonBeq]
  | Json.num a, Json.bool b => by simp [jsonBeq]
  | Json.num a, Json.null => by simp [jsonBeq]
  | Json.num a, Json.arr bs => by simp [jsonBeq]
  | Json.num a, Json.obj bs => by simp [jsonBeq]
  | Json.bool a, Json.str b => by simp [jsonBeq]
  | Json.bool a, Json.num b => by simp [jsonBeq]
  | Json.bool a, Json.null => by simp [jsonBeq]
  | Json.bool a, Json.arr bs => by simp [jsonBeq]
  | Json.bool a, Json.obj bs => by simp [jsonBeq]
  | Json.null, Json.str b => by simp [jsonBeq]
  | Json.null, Json.num b => by simp [jsonBeq]
  | Json.null, Json.bool b => by simp [jsonBeq]
  | Json.null, Json.arr bs => by simp [jsonBeq]
  | Json.null, Json.obj bs => by simp [jsonBeq]
  | Json.arr as, Json.str b => by simp [jsonBeq]
  | Json.arr as, Json.num b => by simp [jsonBeq]
  | Json.arr as, Json.bool b => by simp [jsonBeq]
  | Json.arr as, Json.null => by simp [jsonBeq]
  | Json.arr as, Json.obj bs => by simp [jsonBeq]
  | Json.obj fs, Json.str b => by simp [jsonBeq]
  | Json.obj fs, Json.num b => by simp [jsonBeq]
  | Json.obj fs, Json.bool b => by simp [jsonBeq]
  | Json.obj fs, Json.null => by simp [jsonBeq]
  | Json.obj fs, Json.arr bs => by simp [jsonBeq]

/-- jsonListBeq decides equality. -/
theorem jsonListBeq_iff : ∀ as bs : List Json, jsonListBeq as bs = true ↔ as = bs
  | [], [] => by simp [jsonListBeq]
  | a :: as, b :: bs => by
      simp [jsonListBeq, jsonBeq_iff a b, jsonListBeq_iff as bs]
  | [], b :: bs => by simp [jsonListBeq]
  | a :: as, [] => by simp [jsonListBeq]

/-- jsonObjBeq decides equality. -/
theorem jsonObjBeq_iff : ∀ fs gs : List (String × Json), jsonObjBeq fs gs = true ↔ fs = gs
  | [], [] => by simp [jsonObjBeq]
  | (k1, v1) :: fs, (k2, v2) :: gs => by
      simp [jsonObjBeq, jsonBeq_iff v1 v2, jsonObjBeq_iff fs gs]
  | [], g :: gs => by simp [jsonObjBeq]
  | f :: fs, [] => by simp [jsonObjBeq]

end

instance : DecidableEq Json := fun a b => decidable_of_iff _ (jsonBeq_iff a b)

/-- A Python dict with string keys, as an association list in insertion
order.  Lookup is first-match (Python dicts have unique keys, so this
coincides with dict lookup). -/
def Dict : Type := List (String × Json)

instance : DecidableEq Dict := by
  unfold Dict
  infer_instance

/-- Python `d[k]` / `d.get(k)`: value at the first entry with key `k`. -/
def dget (d : Dict) (k : String) : Option Json :=
  match d with
  | [] => none
  | (k1, v1) :: rest => if k1 = k then some v1 else dget rest k

/-- Python `d[k] = v`: replace the value at an existing key in place,
or append a new entry at the end. -/
def dset (d : Dict) (k : String) (v : Json) : Dict :=
  match d with
  | [] => [(k, v)]
  | (k1, v1) :: rest =>
      if k1 = k then (k1, v) :: rest else (k1, v1) :: dset rest k v

/-- Python `{**a, **b}` (src line 93): keys of `a` in order with values
overridden by `b` where present, followed by the entries of `b` whose
keys are not in `a`. -/
def dmerge (a b : Dict) : Dict :=
  a.map (fun p => match dget b p.1 with
    | some v => (p.1, v)
    | none => p)
  ++ b.filter (fun p => (dget a p.1).isNone)

/-- True when `n` falls in the inclusive codepoint range. -/
def inRange (lo hi n : Nat) : Bool := decide (lo ≤ n) && decide (n ≤ hi)

/-- The character class of the emoji regex in `remove_emoji`
(src lines 9-16): emoticons, symbols and pictographs, transport and map
symbols, flags, and the two extra ranges 2702-27B0 and 24C2-1F251. -/
def isEmojiChar (c : Char) : Bool :=
  inRange 0x1F600 0x1F64F c.toNat ||
  inRange 0x1F300 0x1F5FF c.toNat ||
  inRange 0x1F680 0x1F6FF c.toNat ||
  inRange 0x1F1E0 0x1F1FF c.toNat ||
  inRange 0x2702 0x27B0 c.toNat ||
  inRange 0x24C2 0x1F251 c.toNat

/-- `remove_emoji` (src lines 8-17): `emoji_pattern.sub(r'', text)`
deletes every character of the class, leaving the rest unchanged. -/
def remove_emoji (s : String) : String :=
  String.mk (s.data.filter (fun c => !(isEmojiChar c)))

/-- The three encodings tried by `process_posts` (src line 75). -/
inductive Encoding where
  | utf8
  | utf16
  | latin1
  deriving DecidableEq

def encodings : List Encoding := [Encoding.utf8, Encoding.utf16, Encoding.latin1]

/-- Raw bytes of the input file. -/
def FileBytes : Type := List Nat

/-- Errors a `process_posts` run can end in.  The first two are the
printed-diagnostic-and-return branches; the others are raised Python
exceptions.  In every case no output file is written. -/
inductive PErr where
  | jsonLoadFailure
  | decodeExhausted
  | parseError (msg : String)
  | keyError (k : String)
  | typeError
  deriving DecidableEq

/-- Result of the encoding-fallback load loop (src lines 75-88). -/
inductive LoadResult (α : Type) where
  | ok (a : α)
  | jsonError
  | decodeExhausted
  deriving DecidableEq

/-- The external collaborators of the pipeline.  `jsonParse` models
JsonOutputParser.parse, with `none` standing for OutputParserException;
`llmExtract` and `llmUnify` give the LLM response content for the
extraction prompt built from a post text and the unification prompt
built from a joined tag list (the fixed prompt templates are folded
into these functions); `decode` models reading the file under an
encoding, with `none` standing for UnicodeDecodeError (the source opens
with errors equal to ignore, which makes the actual decode total; see
the decodeIgnore theorems); `jsonLoad` models json.load on the decoded
text, with `none` standing for json.JSONDecodeError. -/
structure Env where
  jsonParse : String → Option Json
  llmExtract : String → String
  llmUnify : String → String
  decode : Encoding → FileBytes → Option String
  jsonLoad : String → Option (List Dict)

/-- The encoding-fallback loop of `process_posts` (src lines 75-88):
a UnicodeDecodeError falls through to the next encoding, a
JSONDecodeError returns immediately, and the for-else branch fires when
every encoding failed to decode. -/
def tryLoad {α : Type} (decode : Encoding → FileBytes → Option String)
    (jsonLoad : String → Option α) (file : FileBytes) :
    List Encoding → LoadResult α
  | [] => LoadResult.decodeExhausted
  | e :: rest =>
      match decode e file with
      | none => tryLoad decode jsonLoad file rest
      | some s =>
          match jsonLoad s with
          | some v => LoadResult.ok v
          | none => LoadResult.jsonError

/-- `extract_metadata` (src lines 19-39): invoke the LLM on the post
text and parse the response content as JSON; on OutputParserException
re-raise with the fixed message. -/
def extract_metadata (env : Env) (post : String) : Except PErr Json :=
  match env.jsonParse (env.llmExtract post) with
  | some res => Except.ok res
  | none => Except.error (PErr.parseError "Context is too big, unable to process")

/-- Python iteration over a JSON value: a list yields its elements, a
string yields its characters as strings, a dict yields its keys;
anything else raises TypeError. -/
def iterElems : Json → Option (List Json)
  | Json.arr xs => some xs
  | Json.str s => some (s.data.map (fun c => Json.str (String.mk [c])))
  | Json.obj fs => some (fs.map (fun p => Json.str p.1))
  | _ => none

/-- A sequential for loop that builds a list, aborting at the first
failure (the shape of the per-post loops in `process_posts`). -/
def seqMap {α β : Type} (f : α → Except PErr β) : List α → Except PErr (List β)
  | [] => Except.ok []
  | a :: as =>
      match f a with
      | Except.error e => Except.error e
      | Except.ok b =>
          match seqMap f as with
          | Except.error e => Except.error e
          | Except.ok bs => Except.ok (b :: bs)

/-- Insert new elements into the accumulated tag set, keeping
first-insertion order (Python set membership; iteration order of a
Python set is unspecified, the model fixes insertion order). -/
def addTags (acc : List String) : List String → List String
  | [] => acc
  | t :: rest => addTags (if t ∈ acc then acc else acc ++ [t]) rest

/-- The tags of one post as strings: `post['tags']` must exist
(KeyError otherwise) and be iterable with string elements (TypeError
otherwise; the source would raise that TypeError only at the comma
join, an unobservable difference in abort point). -/
def tagStrs (post : Dict) : Except PErr (List String) :=
  match dget post "tags" with
  | none => Except.error (PErr.keyError "tags")
  | some v =>
      match iterElems v with
      | none => Except.error PErr.typeError
      | some es => seqMap (fun e => match e with
          | Json.str s => Except.ok s
          | _ => Except.error PErr.typeError) es

/-- The tag-collection loop of `get_unified_tags` (src lines 42-44):
`unique_tags.update(post['tags'])` over every post. -/
def collectTagsFrom (acc : List String) : List Dict → Except PErr (List String)
  | [] => Except.ok acc
  | post :: rest =>
      match tagStrs post with
      | Except.error e => Except.error e
      | Except.ok ts => collectTagsFrom (addTags acc ts) rest

/-- The full tag set of the batch, in first-insertion order. -/
def collectTags (posts : List Dict) : Except PErr (List String) :=
  collectTagsFrom [] posts

/-- `get_unified_tags` (src lines 41-70): collect the set of all tags,
join with commas, invoke the LLM, and parse the response content; on
OutputParserException re-raise with the fixed message. -/
def get_unified_tags (env : Env) (posts : List Dict) : Except PErr Json :=
  match collectTags posts with
  | Except.error e => Except.error e
  | Except.ok tags =>
      match env.jsonParse (env.llmUnify (String.intercalate "," tags)) with
      | some res => Except.ok res
      | none => Except.error (PErr.parseError "Context is too big, unable to process")

/-- One iteration of the enrichment loop (src lines 90-94): clean the
text, extract metadata, and merge it over the post.  A missing or
non-string `text` raises; a non-object metadata value makes the
dict-splat merge raise TypeError. -/
def enrichPost (env : Env) (post : Dict) : Except PErr Dict :=
  match dget post "text" with
  | none => Except.error (PErr.keyError "text")
  | some (Json.str t) =>
      match extract_metadata env (remove_emoji t) with
      | Except.error e => Except.error e
      | Except.ok (Json.obj md) =>
          Except.ok (dmerge (dset post "text" (Json.str (remove_emoji t))) md)
      | Except.ok _ => Except.error PErr.typeError
  | some _ => Except.error PErr.typeError

/-- `unified_tags.get(tag, tag)` (src line 100): parsed-JSON dict keys
are strings, so a non-string tag never matches and falls back to
itself. -/
def rewriteTag (umap : Dict) (tag : Json) : Json :=
  match tag with
  | Json.str s => (dget umap s).getD (Json.str s)
  | _ => tag

/-- One iteration of the rewrite loop (src lines 98-101): map every tag
through the unified map with identity fallback, collapse into a set,
and store the set back as a list.  Python set iteration order is
unspecified; the model uses List.dedup as the canonical order. -/
def rewritePost (umap : Dict) (post : Dict) : Except PErr Dict :=
  match dget post "tags" with
  | none => Except.error (PErr.keyError "tags")
  | some current =>
      match iterElems current with
      | none => Except.error PErr.typeError
      | some elems =>
          Except.ok (dset post "tags" (Json.arr ((elems.map (rewriteTag umap)).dedup)))

/-- The post-load part of `process_posts` (src lines 90-104): enrich
every post, unify tags with one LLM call, and rewrite every post's
tags.  `Except.ok out` is the content written to the output file; every
`Except.error` outcome writes nothing. -/
def processLoaded (env : Env) (posts : List Dict) : Except PErr (List Dict) :=
  match seqMap (enrichPost env) posts with
  | Except.error e => Except.error e
  | Except.ok enriched =>
      match get_unified_tags env enriched with
      | Except.error e => Except.error e
      | Except.ok (Json.obj umap) => seqMap (rewritePost umap) enriched
      | Except.ok _ => Except.error PErr.typeError

/-- `process_posts` (src lines 72-104): load the batch through the
encoding-fallback loop and run the post-load pipeline on it. -/
def process_posts (env : Env) (file : FileBytes) : Except PErr (List Dict) :=
  match tryLoad env.decode env.jsonLoad file encodings with
  | LoadResult.jsonError => Except.error PErr.jsonLoadFailure
  | LoadResult.decodeExhausted => Except.error PErr.decodeExhausted
  | LoadResult.ok posts => processLoaded env posts

/-- True when the byte is a utf-8 continuation byte. -/
def isCont (b : Nat) : Bool := decide (0x80 ≤ b) && decide (b < 0xC0)

/-- Fuel-indexed core of the utf-8 ignore decoder; the fuel only bounds
the recursion depth and never runs out when it starts at the byte
count. -/
def utf8Ignore : Nat → List Nat → List Nat
  | 0, _ => []
  | _ + 1, [] => []
  | fuel + 1, b :: rest =>
      if b < 0x80 then b :: utf8Ignore fuel rest
      else if b < 0xC2 then utf8Ignore fuel rest
      else if b < 0xE0 then
        match rest with
        | [] => []
        | b2 :: r2 =>
            if isCont b2 then
              ((b - 0xC0) * 0x40 + (b2 - 0x80)) :: utf8Ignore fuel r2
            else utf8Ignore fuel rest
      else if b < 0xF0 then
        match rest with
        | [] => []
        | b2 :: r2 =>
            match r2 with
            | [] => []
            | b3 :: r3 =>
                if isCont b2 && isCont b3 then
                  ((b - 0xE0) * 0x1000 + (b2 - 0x80) * 0x40 + (b3 - 0x80)) ::
                    utf8Ignore fuel r3
                else utf8Ignore fuel rest
      else if b < 0xF5 then
        match rest with
        | [] => []
        | b2 :: r2 =>
            match r2 with
            | [] => []
            | b3 :: r3 =>
                match r3 with
                | [] => []
                | b4 :: r4 =>
                    if isCont b2 && isCont b3 && isCont b4 then
                      ((b - 0xF0) * 0x40000 + (b2 - 0x80) * 0x1000 +
                        (b3 - 0x80) * 0x40 + (b4 - 0x80)) :: utf8Ignore fuel r4
                    else utf8Ignore fuel rest
      else utf8Ignore fuel rest

/-- The codepoints produced by decoding a byte sequence as utf-8 with
errors suppressed: invalid bytes are skipped, never raised.  This
models the Python codec machinery (external to the repository; the
repository's own decision is only to pass errors equal to ignore when
opening the file). -/
def utf8DecodeIgnore (l : List Nat) : List Nat := utf8Ignore l.length l

/-! ### Concrete environments and records used by the theorems -/

def postX : Dict := [("text", Json.str "x")]

def metaX : Dict :=
  [("line_count", Json.num 5), ("language", Json.str "English"),
   ("tags", Json.arr [Json.str "A"]), ("extra", Json.str "y")]

def fileOne : FileBytes := [0]

/-- An environment whose extractor reply parses to metadata carrying
line_count and tags but no language key, and whose unifier reply is the
empty mapping. -/
def envNoLanguage : Env := {
  jsonParse := fun s =>
    if s = "X" then
      some (Json.obj [("line_count", Json.num 1), ("tags", Json.arr [Json.str "A"])])
    else if s = "U" then some (Json.obj [])
    else none
  llmExtract := fun _ => "X"
  llmUnify := fun _ => "U"
  decode := fun _ _ => some "RAW"
  jsonLoad := fun s =>
    if s = "RAW" then some [[("text", Json.str "hi")]] else none }

def outNoLanguage : Dict :=
  [("text", Json.str "hi"), ("line_count", Json.num 1),
   ("tags", Json.arr [Json.str "A"])]

def umapW : Dict :=
  [("Motivation", Json.str "Motivation"), ("Jobseekers", Json.str "Job Search")]

def postW : Dict :=
  [("text", Json.str "t"),
   ("tags", Json.arr [Json.str "Motivation", Json.str "Jobseekers"])]

/-- Decoder for the C5 witness: utf-8 fails to decode, the others
decode to text the JSON loader rejects. -/
def decodeW : Encoding → FileBytes → Option String := fun e _ =>
  match e with
  | Encoding.utf8 => none
  | Encoding.utf16 => some "BAD"
  | Encoding.latin1 => some "BAD"

def decodeWnone : Encoding → FileBytes → Option String := fun _ _ => none

def jsonLoadWnone : String → Option (List Dict) := fun _ => none

def fileP : FileBytes := [1]

/-- Environment whose parser rejects every response: extraction fails
on the first post. -/
def envParseFail : Env := {
  jsonParse := fun _ => none
  llmExtract := fun _ => "R"
  llmUnify := fun _ => "R"
  decode := fun _ _ => some "RAW"
  jsonLoad := fun s =>
    if s = "RAW" then some [[("text", Json.str "p")]] else none }

/-- Environment whose parser accepts the extraction response but
rejects the unification response. -/
def envUnifyFail : Env := {
  jsonParse := fun s =>
    if s = "X" then some (Json.obj [("tags", Json.arr [])]) else none
  llmExtract := fun _ => "X"
  llmUnify := fun _ => "Y"
  decode := fun _ _ => some "RAW"
  jsonLoad := fun s =>
    if s = "RAW" then some [[("text", Json.str "p")]] else none }

def fileC2 : FileBytes := [2]

/-- Environment for a fully successful one-post run. -/
def envAll : Env := {
  jsonParse := fun s =>
    if s = "X" then
      some (Json.obj [("line_count", Json.num 1), ("language", Json.str "English"),
        ("tags", Json.arr [Json.str "A"])])
    else if s = "U" then some (Json.obj [("A", Json.str "A")])
    else none
  llmExtract := fun _ => "X"
  llmUnify := fun _ => "U"
  decode := fun _ _ => some "RAW"
  jsonLoad := fun s =>
    if s = "RAW" then some [[("text", Json.str "hi")]] else none }

def envC2JsonFail : Env := { envAll with jsonLoad := fun _ => none }

def envC2Decode : Env := { envAll with decode := fun _ _ => none }

def envC2Enrich : Env := { envAll with jsonParse := fun _ => none }

def envC2Unify : Env := { envAll with
  jsonParse := fun s =>
    if s = "X" then
      some (Json.obj [("line_count", Json.num 1), ("language", Json.str "English"),
        ("tags", Json.arr [Json.str "A"])])
    else none }

def outAll : Dict :=
  [("text", Json.str "hi"), ("line_count", Json.num 1),
   ("language", Json.str "English"), ("tags", Json.arr [Json.str "A"])]

def fileC7 : FileBytes := [3]

/-- Environment for a successful two-post run, matching the end-to-end
scenario of the specification. -/
def envOrder : Env := {
  jsonParse := fun s =>
    if s = "E1" then
      some (Json.obj [("line_count", Json.num 2), ("language", Json.str "English"),
        ("tags", Json.arr [Json.str "Jobseekers"])])
    else if s = "E2" then
      some (Json.obj [("line_count", Json.num 1), ("language", Json.str "English"),
        ("tags", Json.arr [Json.str "Job Hunting"])])
    else if s = "U" then
      some (Json.obj [("Jobseekers", Json.str "Job Search"),
        ("Job Hunting", Json.str "Job Search")])
    else none
  llmExtract := fun t => if t = "postA" then "E1" else "E2"
  llmUnify := fun _ => "U"
  decode := fun _ _ => some "RAW"
  jsonLoad := fun s =>
    if s = "RAW" then
      some [[("text", Json.str "postA")], [("text", Json.str "postB")]]
    else none }

def outOrder : List Dict :=
  [[("text", Json.str "postA"), ("line_count", Json.num 2),
    ("language", Json.str "English"), ("tags", Json.arr [Json.str "Job Search"])],
   [("text", Json.str "postB"), ("line_count", Json.num 1),
    ("language", Json.str "English"), ("tags", Json.arr [Json.str "Job Search"])]]

/-! ### Association-list lemmas -/

/-- Setting a key makes it readable. -/
theorem dget_dset_self (d : Dict) (k : String) (v : Json) :
    dget (dset d k v) k = some v := by
  induction d with
  | nil => simp [dset, dget]
  | cons p rest ih =>
      obtain ⟨k1, v1⟩ := p
      by_cases h : k1 = k
      · simp [dset, dget, h]
      · simp [dset, dget, h, ih]

/-- Lookup in an appended association list searches the front first. -/
theorem dget_append (l1 l2 : List (String × Json)) (k : String) :
    dget (l1 ++ l2) k =
      (match dget l1 k with
       | some v => some v
       | none => dget l2 k) := by
  induction l1 with
  | nil => simp [dget]
  | cons p rest ih =>
      obtain ⟨k1, v1⟩ := p
      by_cases h : k1 = k
      · simp [dget, h]
      · simp [dget, h, ih]

/-- Lookup in the overridden copy of the first dict of a merge. -/
theorem dget_map_override (a b : Dict) (k : String) :
    dget (a.map (fun p => match dget b p.1 with
      | some v => (p.1, v)
      | none => p)) k =
      (match dget a k with
       | some v => some ((dget b k).getD v)
       | none => none) := by
  induction a with
  | nil => simp [dget]
  | cons p rest ih =>
      obtain ⟨k1, v1⟩ := p
      by_cases h : k1 = k
      · subst h
        cases hb : dget b k1 <;> simp [dget, hb]
      · cases hb : dget b k1 <;> simp [dget, h, hb, ih]

/-- Lookup in the filtered copy of the second dict of a merge. -/
theorem dget_filter_isNone (a b : Dict) (k : String) :
    dget (b.filter (fun p => (dget a p.1).isNone)) k =
      (match dget a k with
       | some _ => none
       | none => dget b k) := by
  induction b with
  | nil => cases dget a k <;> simp [dget]
  | cons p rest ih =>
      obtain ⟨k2, v2⟩ := p
      rw [List.filter_cons]
      by_cases h : k2 = k
      · subst h
        cases ha : dget a k2 <;> simp [ha] at ih ⊢ <;> simp [dget, ha, ih]
      · cases hp : (dget a k2).isNone <;> cases ha : dget a k <;>
          simp_all [dget, h]

/-- Full characterization of lookup in a Python dict merge: the second
dict wins where it has the key, the first dict supplies the rest. -/
theorem dget_dmerge (a b : Dict) (k : String) :
    dget (dmerge a b) k =
      (match dget b k with
       | some v => some v
       | none => dget a k) := by
  unfold dmerge
  rw [dget_append, dget_map_override, dget_filter_isNone]
  cases ha : dget a k <;> cases hb : dget b k <;> simp

/-! ### Sequential-loop lemmas -/

/-- A successful sequential loop produces one output per input. -/
theorem seqMap_ok_length {α β : Type} (f : α → Except PErr β) :
    ∀ (l : List α) (out : List β), seqMap f l = Except.ok out →
      out.length = l.length := by
  intro l
  induction l with
  | nil =>
      intro out h
      simp only [seqMap] at h
      cases h
      rfl
  | cons a as ih =>
      intro out h
      simp only [seqMap] at h
      cases hf : f a with
      | error e => simp [hf] at h
      | ok b =>
          cases hrest : seqMap f as with
          | error e => simp [hf, hrest] at h
          | ok bs =>
              simp [hf, hrest] at h
              subst h
              simp [ih bs hrest]

/-- In a successful sequential loop the i-th output comes from the
i-th input. -/
theorem seqMap_ok_get {α β : Type} (f : α → Except PErr β) :
    ∀ (l : List α) (out : List β), seqMap f l = Except.ok out →
      ∀ (i : Nat) (hi : i < l.length) (ho : i < out.length),
        f (l.get ⟨i, hi⟩) = Except.ok (out.get ⟨i, ho⟩) := by
  intro l
  induction l with
  | nil => intro out h i hi; exact absurd hi (by simp)
  | cons a as ih =>
      intro out h i hi ho
      simp only [seqMap] at h
      cases hf : f a with
      | error e => simp [hf] at h
      | ok b =>
          cases hrest : seqMap f as with
          | error e => simp [hf, hrest] at h
          | ok bs =>
              simp [hf, hrest] at h
              subst h
              cases i with
              | zero => simpa using hf
              | succ j =>
                  exact ih bs hrest j (by simpa using hi) (by simpa using ho)

/-- Every output of a successful sequential loop comes from some input. -/
theorem seqMap_ok_mem {α β : Type} (f : α → Except PErr β) :
    ∀ (l : List α) (out : List β), seqMap f l = Except.ok out →
      ∀ b ∈ out, ∃ a ∈ l, f a = Except.ok b := by
  intro l
  induction l with
  | nil =>
      intro out h b hb
      simp only [seqMap] at h
      cases h
      simp at hb
  | cons a as ih =>
      intro out h b hb
      simp only [seqMap] at h
      cases hf : f a with
      | error e => simp [hf] at h
      | ok b0 =>
          cases hrest : seqMap f as with
          | error e => simp [hf, hrest] at h
          | ok bs =>
              simp [hf, hrest] at h
              subst h
              rcases List.mem_cons.mp hb with hb | hb
              · exact ⟨a, List.mem_cons_self a as, by rw [hf, hb]⟩
              · obtain ⟨a1, ha1, hfa1⟩ := ih bs hrest b hb
                exact ⟨a1, List.mem_cons_of_mem a ha1, hfa1⟩

/-- A successful sequential loop succeeded on every input element. -/
theorem seqMap_ok_all {α β : Type} (f : α → Except PErr β) :
    ∀ (l : List α) (out : List β), seqMap f l = Except.ok out →
      ∀ a ∈ l, ∃ b, f a = Except.ok b := by
  intro l
  induction l with
  | nil => intro out h a ha; simp at ha
  | cons a0 as ih =>
      intro out h a ha
      simp only [seqMap] at h
      cases hf : f a0 with
      | error e => simp [hf] at h
      | ok b0 =>
          cases hrest : seqMap f as with
          | error e => simp [hf, hrest] at h
          | ok bs =>
              rcases List.mem_cons.mp ha with ha | ha
              · exact ⟨b0, by rw [ha, hf]⟩
              · exact ih bs hrest a ha

/-! ### C8, C9: emoji filter -/

/-- C8: for every string containing only characters outside the defined
emoji Unicode ranges, the emoji filter is the identity. -/
theorem remove_emoji_plain_identity (s : String)
    (h : ∀ c ∈ s.data, isEmojiChar c = false) : remove_emoji s = s := by
  unfold remove_emoji
  have hf : s.data.filter (fun c => !(isEmojiChar c)) = s.data :=
    List.filter_eq_self.mpr (fun c hc => by simp [h c hc])
  rw [hf]

/-- Witness for C8 at a concrete plain-text string. -/
theorem remove_emoji_plain_identity_witness :
    remove_emoji "Great day!" = "Great day!" :=
  remove_emoji_plain_identity "Great day!" (by decide)

/-- C9: the emoji filter is idempotent. -/
theorem remove_emoji_idempotent (s : String) :
    remove_emoji (remove_emoji s) = remove_emoji s := by
  unfold remove_emoji
  simp [List.filter_filter]

/-! ### C4: dict-splat merge keeps additional metadata keys -/

/-- C4 counterexample: merging a metadata mapping with an additional
key `extra` into a post does not ignore it — the merged record has the
key, refuting the claim that the merged key set is the post's keys
union exactly the three metadata keys. -/
theorem dmerge_extra_key_not_ignored :
    ¬ (∀ (post md : Dict) (k : String),
        (dget (dmerge post md) k).isSome = true →
        (dget post k).isSome = true ∨
          k = "line_count" ∨ k = "language" ∨ k = "tags") := by
  intro h
  exact absurd (h postX metaX "extra" (by decide)) (by decide)

/-- C4 amended: the merged record's key set is the post's keys union
all of the metadata mapping's keys (additional keys retained, not
ignored), with the metadata value winning where both have the key. -/
theorem dmerge_key_semantics (post md : Dict) (k : String) :
    ((dget (dmerge post md) k).isSome = true ↔
      ((dget post k).isSome = true ∨ (dget md k).isSome = true)) ∧
    dget (dmerge post md) k =
      (match dget md k with
       | some v => some v
       | none => dget post k) := by
  refine ⟨?_, dget_dmerge post md k⟩
  rw [dget_dmerge post md k]
  cases dget md k <;> cases dget post k <;> simp

/-! ### C3: only the tags field is forced; line_count and language are
not validated -/

/-- C3 counterexample: a batch whose extracted metadata lacks the
language key reaches the output-writing step anyway — the run succeeds
and the written post has no language field, refuting the claim that a
post missing any of the three fields aborts the run before writing. -/
theorem process_posts_writes_missing_language :
    process_posts envNoLanguage fileOne = Except.ok [outNoLanguage] ∧
    dget outNoLanguage "language" = none ∧
    dget outNoLanguage "line_count" = some (Json.num 1) ∧
    dget outNoLanguage "tags" = some (Json.arr [Json.str "A"]) :=
  ⟨rfl, rfl, rfl, rfl⟩

/-- C3 amended: every post in a written batch has the tags field
populated (a post missing tags aborts the run at the unification step),
but the line_count and language fields are not separately validated and
may be absent from written output. -/
theorem process_posts_ok_tags_populated (env : Env) (file : FileBytes)
    (out : List Dict) (h : process_posts env file = Except.ok out) :
    ∀ p ∈ out, ∃ ts, dget p "tags" = some (Json.arr ts) := by
  unfold process_posts at h
  cases hl : tryLoad env.decode env.jsonLoad file encodings with
  | jsonError => simp [hl] at h
  | decodeExhausted => simp [hl] at h
  | ok posts =>
      rw [hl] at h
      dsimp only at h
      unfold processLoaded at h
      cases he : seqMap (enrichPost env) posts with
      | error e => simp [he] at h
      | ok enriched =>
          rw [he] at h
          dsimp only at h
          cases hu : get_unified_tags env enriched with
          | error e => simp [hu] at h
          | ok u =>
              rw [hu] at h
              cases u with
              | obj umap =>
                  dsimp only at h
                  intro p hp
                  obtain ⟨a, _, hfa⟩ := seqMap_ok_mem _ enriched out h p hp
                  unfold rewritePost at hfa
                  cases hg : dget a "tags" with
                  | none => simp [hg] at hfa
                  | some cur =>
                      cases hi : iterElems cur with
                      | none => simp [hg, hi] at hfa
                      | some elems =>
                          simp [hg, hi] at hfa
                          refine ⟨(elems.map (rewriteTag umap)).dedup, ?_⟩
                          rw [← hfa]
                          exact dget_dset_self a "tags" _
              | str s => simp at h
              | num n => simp at h
              | bool b => simp at h
              | null => simp at h
              | arr xs => simp at h

/-- Witness for the amended C3 at the concrete run above. -/
theorem process_posts_ok_tags_populated_witness :
    ∃ ts, dget outNoLanguage "tags" = some (Json.arr ts) :=
  process_posts_ok_tags_populated envNoLanguage fileOne [outNoLanguage] rfl
    outNoLanguage (by simp)

/-! ### C6: tag rewrite through the unified map -/

/-- C6: for a post whose tags are an array, the rewrite step replaces
each tag with the map's value when the tag is a key and with the tag
itself otherwise, deduplicates the result into a set stored as the
final tag list, and in particular a map sending a tag to itself leaves
that tag in the output. -/
theorem rewrite_step_spec (umap post : Dict) (ts : List Json)
    (h : dget post "tags" = some (Json.arr ts)) :
    ∃ final : List Json,
      rewritePost umap post = Except.ok (dset post "tags" (Json.arr final)) ∧
      (∀ t, t ∈ final ↔ ∃ s ∈ ts, rewriteTag umap s = t) ∧
      final.Nodup ∧
      (∀ s : String, rewriteTag umap (Json.str s) = (dget umap s).getD (Json.str s)) ∧
      (∀ T : String, dget umap T = some (Json.str T) → Json.str T ∈ ts →
        Json.str T ∈ final) := by
  refine ⟨(ts.map (rewriteTag umap)).dedup, ?_, ?_, List.nodup_dedup _,
    fun s => rfl, ?_⟩
  · unfold rewritePost
    simp [h, iterElems]
  · intro t
    simp [List.mem_dedup, List.mem_map]
  · intro T hT hmem
    rw [List.mem_dedup, List.mem_map]
    exact ⟨Json.str T, hmem, by simp [rewriteTag, hT]⟩

/-- Witness for C6 at a concrete map that is the identity on the tag
Motivation. -/
theorem rewrite_step_spec_witness :
    ∃ final : List Json,
      rewritePost umapW postW = Except.ok (dset postW "tags" (Json.arr final)) ∧
      (∀ t, t ∈ final ↔
        ∃ s ∈ [Json.str "Motivation", Json.str "Jobseekers"],
          rewriteTag umapW s = t) ∧
      final.Nodup ∧
      (∀ s : String, rewriteTag umapW (Json.str s) = (dget umapW s).getD (Json.str s)) ∧
      (∀ T : String, dget umapW T = some (Json.str T) →
        Json.str T ∈ [Json.str "Motivation", Json.str "Jobseekers"] →
        Json.str T ∈ final) :=
  rewrite_step_spec umapW postW [Json.str "Motivation", Json.str "Jobseekers"] rfl

/-! ### C5: encoding-fallback asymmetry -/

/-- C5: the loader tries utf-8, utf-16, latin1 in that fixed order; a
decode error under one encoding falls through to the next, a JSON-parse
failure under a successfully decoded encoding aborts the whole load
immediately without trying the remaining encodings, and if every
encoding raises a decode error the loader reports failure with no
result. -/
theorem tryLoad_asymmetric_failure (decode : Encoding → FileBytes → Option String)
    (jsonLoad : String → Option (List Dict)) (file : FileBytes) :
    (encodings = [Encoding.utf8, Encoding.utf16, Encoding.latin1]) ∧
    (∀ e rest, decode e file = none →
      tryLoad decode jsonLoad file (e :: rest) = tryLoad decode jsonLoad file rest) ∧
    (∀ e rest s, decode e file = some s → jsonLoad s = none →
      tryLoad decode jsonLoad file (e :: rest) = LoadResult.jsonError) ∧
    ((∀ e ∈ encodings, decode e file = none) →
      tryLoad decode jsonLoad file encodings = LoadResult.decodeExhausted) := by
  refine ⟨rfl, ?_, ?_, ?_⟩
  · intro e rest h
    simp [tryLoad, h]
  · intro e rest s h1 h2
    simp [tryLoad, h1, h2]
  · intro h
    simp only [encodings, List.mem_cons, List.not_mem_nil] at h
    have h1 := h Encoding.utf8 (by simp)
    have h2 := h Encoding.utf16 (by simp)
    have h3 := h Encoding.latin1 (by simp)
    simp [encodings, tryLoad, h1, h2, h3]

/-- Witness for C5: each failure branch exercised at concrete inputs. -/
theorem tryLoad_asymmetric_failure_witness :
    (tryLoad decodeW jsonLoadWnone [] (Encoding.utf8 :: [Encoding.utf16, Encoding.latin1]) =
      tryLoad decodeW jsonLoadWnone [] [Encoding.utf16, Encoding.latin1]) ∧
    (tryLoad decodeW jsonLoadWnone [] (Encoding.utf16 :: [Encoding.latin1]) =
      LoadResult.jsonError) ∧
    (tryLoad decodeWnone jsonLoadWnone [] encodings = LoadResult.decodeExhausted) :=
  ⟨(tryLoad_asymmetric_failure decodeW jsonLoadWnone []).2.1
      Encoding.utf8 [Encoding.utf16, Encoding.latin1] rfl,
   (tryLoad_asymmetric_failure decodeW jsonLoadWnone []).2.2.1
      Encoding.utf16 [Encoding.latin1] "BAD" rfl rfl,
   (tryLoad_asymmetric_failure decodeWnone jsonLoadWnone []).2.2.2
      (fun _ _ => rfl)⟩

/-! ### C10: errors=ignore makes decoding total -/

/-- Environment for the C10 witness, with a decode that always
succeeds. -/
def envTotalDecode : Env := {
  jsonParse := fun _ => none
  llmExtract := fun _ => "r"
  llmUnify := fun _ => "r"
  decode := fun _ _ => some "[]"
  jsonLoad := fun _ => some [] }

/-- C10: the source opens the input file with decode errors suppressed,
so decoding is total and never raises: the loader's result is decided
entirely by the first attempted encoding (the fall-through-to-next-
encoding branch and the all-encodings-failed branch are unreachable),
and the ignore decoder silently drops undecodable bytes from the
decoded text instead of triggering the encoding fallback. -/
theorem decode_ignore_first_encoding_only (env : Env) (file : FileBytes)
    (h : ∀ e f, (env.decode e f).isSome = true) :
    (∀ s, env.decode Encoding.utf8 file = some s →
      tryLoad env.decode env.jsonLoad file encodings =
        (match env.jsonLoad s with
         | some ps => LoadResult.ok ps
         | none => LoadResult.jsonError) ∧
      process_posts env file =
        (match env.jsonLoad s with
         | some ps => processLoaded env ps
         | none => Except.error PErr.jsonLoadFailure)) ∧
    tryLoad env.decode env.jsonLoad file encodings ≠
      LoadResult.decodeExhausted ∧
    utf8DecodeIgnore [0x61, 0xFF, 0x62] = [0x61, 0x62] := by
  have hd : ∃ s, env.decode Encoding.utf8 file = some s := by
    have hu := h Encoding.utf8 file
    cases hc : env.decode Encoding.utf8 file
    · rw [hc] at hu; simp at hu
    · exact ⟨_, rfl⟩
  refine ⟨?_, ?_, by decide⟩
  · intro s hs
    constructor
    · simp only [encodings, tryLoad, hs]
      cases env.jsonLoad s <;> simp
    · unfold process_posts
      simp only [encodings, tryLoad, hs]
      cases env.jsonLoad s <;> simp
  · obtain ⟨s, hs⟩ := hd
    simp only [encodings, tryLoad, hs]
    cases env.jsonLoad s <;> simp

/-- Witness for C10 at a concrete environment whose decode always
succeeds. -/
theorem decode_ignore_first_encoding_only_witness :
    (∀ s, envTotalDecode.decode Encoding.utf8 [] = some s →
      tryLoad envTotalDecode.decode envTotalDecode.jsonLoad [] encodings =
        (match envTotalDecode.jsonLoad s with
         | some ps => LoadResult.ok ps
         | none => LoadResult.jsonError) ∧
      process_posts envTotalDecode [] =
        (match envTotalDecode.jsonLoad s with
         | some ps => processLoaded envTotalDecode ps
         | none => Except.error PErr.jsonLoadFailure)) ∧
    tryLoad envTotalDecode.decode envTotalDecode.jsonLoad [] encodings ≠
      LoadResult.decodeExhausted ∧
    utf8DecodeIgnore [0x61, 0xFF, 0x62] = [0x61, 0x62] :=
  decode_ignore_first_encoding_only envTotalDecode [] (fun _ _ => rfl)

/-! ### C1: fixed parse-error message and batch abort -/

/-- C1: whenever an LLM response is not parseable as JSON, metadata
extraction and tag unification both fail with the parse error carrying
exactly the message "Context is too big, unable to process", and a run
whose extraction or unification stage fails that way aborts with that
very error (no per-post retry or skip). -/
theorem parse_failure_fixed_message (env : Env) :
    (∀ post : String, env.jsonParse (env.llmExtract post) = none →
      extract_metadata env post =
        Except.error (PErr.parseError "Context is too big, unable to process")) ∧
    (∀ posts tags, collectTags posts = Except.ok tags →
      env.jsonParse (env.llmUnify (String.intercalate "," tags)) = none →
      get_unified_tags env posts =
        Except.error (PErr.parseError "Context is too big, unable to process")) ∧
    (∀ file posts msg,
      tryLoad env.decode env.jsonLoad file encodings = LoadResult.ok posts →
      seqMap (enrichPost env) posts = Except.error (PErr.parseError msg) →
      process_posts env file = Except.error (PErr.parseError msg)) ∧
    (∀ file posts enriched msg,
      tryLoad env.decode env.jsonLoad file encodings = LoadResult.ok posts →
      seqMap (enrichPost env) posts = Except.ok enriched →
      get_unified_tags env enriched = Except.error (PErr.parseError msg) →
      process_posts env file = Except.error (PErr.parseError msg)) := by
  refine ⟨?_, ?_, ?_, ?_⟩
  · intro post h
    unfold extract_metadata
    rw [h]
  · intro posts tags h1 h2
    unfold get_unified_tags
    rw [h1]
    dsimp only
    rw [h2]
  · intro file posts msg h1 h2
    unfold process_posts
    rw [h1]
    dsimp only
    unfold processLoaded
    rw [h2]
  · intro file posts enriched msg h1 h2 h3
    unfold process_posts
    rw [h1]
    dsimp only
    unfold processLoaded
    rw [h2]
    dsimp only
    rw [h3]

/-- Witness for C1: concrete runs exercising the extraction-failure,
unification-failure and abort branches. -/
theorem parse_failure_fixed_message_witness :
    extract_metadata envParseFail "p" =
      Except.error (PErr.parseError "Context is too big, unable to process") ∧
    get_unified_tags envParseFail [] =
      Except.error (PErr.parseError "Context is too big, unable to process") ∧
    process_posts envParseFail fileP =
      Except.error (PErr.parseError "Context is too big, unable to process") ∧
    process_posts envUnifyFail fileP =
      Except.error (PErr.parseError "Context is too big, unable to process") :=
  ⟨(parse_failure_fixed_message envParseFail).1 "p" rfl,
   (parse_failure_fixed_message envParseFail).2.1 [] [] rfl rfl,
   (parse_failure_fixed_message envParseFail).2.2.1 fileP
      [[("text", Json.str "p")]] "Context is too big, unable to process" rfl rfl,
   (parse_failure_fixed_message envUnifyFail).2.2.2 fileP
      [[("text", Json.str "p")]]
      [[("text", Json.str "p"), ("tags", Json.arr [])]]
      "Context is too big, unable to process" rfl rfl rfl⟩

/-! ### C2: all-or-nothing batch processing -/

/-- C2: `process_posts` is all-or-nothing: a decode failure of every
encoding, a JSON load failure, an enrichment failure, or a unification
failure each makes the run end in an error (nothing written), and a
written output exists exactly when loading succeeded, every post was
enriched, the tag map was obtained, and every enriched post was
rewritten. -/
theorem process_posts_all_or_nothing (env : Env) (file : FileBytes) :
    (tryLoad env.decode env.jsonLoad file encodings = LoadResult.jsonError →
      process_posts env file = Except.error PErr.jsonLoadFailure) ∧
    (tryLoad env.decode env.jsonLoad file encodings = LoadResult.decodeExhausted →
      process_posts env file = Except.error PErr.decodeExhausted) ∧
    (∀ posts e,
      tryLoad env.decode env.jsonLoad file encodings = LoadResult.ok posts →
      seqMap (enrichPost env) posts = Except.error e →
      process_posts env file = Except.error e) ∧
    (∀ posts enriched e,
      tryLoad env.decode env.jsonLoad file encodings = LoadResult.ok posts →
      seqMap (enrichPost env) posts = Except.ok enriched →
      get_unified_tags env enriched = Except.error e →
      process_posts env file = Except.error e) ∧
    (∀ out, process_posts env file = Except.ok out →
      ∃ posts enriched umap,
        tryLoad env.decode env.jsonLoad file encodings = LoadResult.ok posts ∧
        seqMap (enrichPost env) posts = Except.ok enriched ∧
        (∀ p ∈ posts, ∃ ep, enrichPost env p = Except.ok ep) ∧
        get_unified_tags env enriched = Except.ok (Json.obj umap) ∧
        seqMap (rewritePost umap) enriched = Except.ok out ∧
        (∀ q ∈ enriched, ∃ rq, rewritePost umap q = Except.ok rq)) := by
  refine ⟨?_, ?_, ?_, ?_, ?_⟩
  · intro h
    unfold process_posts
    rw [h]
  · intro h
    unfold process_posts
    rw [h]
  · intro posts e h1 h2
    unfold process_posts
    rw [h1]
    dsimp only
    unfold processLoaded
    rw [h2]
  · intro posts enriched e h1 h2 h3
    unfold process_posts
    rw [h1]
    dsimp only
    unfold processLoaded
    rw [h2]
    dsimp only
    rw [h3]
  · intro out h
    unfold process_posts at h
    cases hl : tryLoad env.decode env.jsonLoad file encodings with
    | jsonError => simp [hl] at h
    | decodeExhausted => simp [hl] at h
    | ok posts =>
        rw [hl] at h
        dsimp only at h
        unfold processLoaded at h
        cases he : seqMap (enrichPost env) posts with
        | error e => simp [he] at h
        | ok enriched =>
            rw [he] at h
            dsimp only at h
            cases hu : get_unified_tags env enriched with
            | error e => simp [hu] at h
            | ok u =>
                rw [hu] at h
                cases u with
                | obj umap =>
                    dsimp only at h
                    exact ⟨posts, enriched, umap, rfl, he,
                      seqMap_ok_all _ posts enriched he, hu, h,
                      seqMap_ok_all _ enriched out h⟩
                | str s => simp at h
                | num n => simp at h
                | bool b => simp at h
                | null => simp at h
                | arr xs => simp at h

/-- Witness for C2: all five branches exercised at concrete
environments. -/
theorem process_posts_all_or_nothing_witness :
    process_posts envC2JsonFail fileC2 = Except.error PErr.jsonLoadFailure ∧
    process_posts envC2Decode fileC2 = Except.error PErr.decodeExhausted ∧
    process_posts envC2Enrich fileC2 =
      Except.error (PErr.parseError "Context is too big, unable to process") ∧
    process_posts envC2Unify fileC2 =
      Except.error (PErr.parseError "Context is too big, unable to process") ∧
    (∃ posts enriched umap,
      tryLoad envAll.decode envAll.jsonLoad fileC2 encodings = LoadResult.ok posts ∧
      seqMap (enrichPost envAll) posts = Except.ok enriched ∧
      (∀ p ∈ posts, ∃ ep, enrichPost envAll p = Except.ok ep) ∧
      get_unified_tags envAll enriched = Except.ok (Json.obj umap) ∧
      seqMap (rewritePost umap) enriched = Except.ok [outAll] ∧
      (∀ q ∈ enriched, ∃ rq, rewritePost umap q = Except.ok rq)) :=
  ⟨(process_posts_all_or_nothing envC2JsonFail fileC2).1 rfl,
   (process_posts_all_or_nothing envC2Decode fileC2).2.1 rfl,
   (process_posts_all_or_nothing envC2Enrich fileC2).2.2.1
      [[("text", Json.str "hi")]] _ rfl rfl,
   (process_posts_all_or_nothing envC2Unify fileC2).2.2.2.1
      [[("text", Json.str "hi")]]
      [[("text", Json.str "hi"), ("line_count", Json.num 1),
        ("language", Json.str "English"), ("tags", Json.arr [Json.str "A"])]]
      _ rfl rfl rfl,
   (process_posts_all_or_nothing envAll fileC2).2.2.2.2 [outAll] rfl⟩

/-! ### C7: order and count preservation -/

/-- C7: a successful run writes exactly one element per loaded post, in
the same order: the i-th output is the i-th input post enriched by the
extractor and rewritten through the batch tag map. -/
theorem process_posts_preserves_order (env : Env) (file : FileBytes)
    (out : List Dict) (h : process_posts env file = Except.ok out) :
    ∃ posts enriched umap,
      tryLoad env.decode env.jsonLoad file encodings = LoadResult.ok posts ∧
      out.length = posts.length ∧
      enriched.length = posts.length ∧
      get_unified_tags env enriched = Except.ok (Json.obj umap) ∧
      (∀ i (hi : i < posts.length) (he : i < enriched.length) (ho : i < out.length),
        enrichPost env (posts.get ⟨i, hi⟩) = Except.ok (enriched.get ⟨i, he⟩) ∧
        rewritePost umap (enriched.get ⟨i, he⟩) = Except.ok (out.get ⟨i, ho⟩)) := by
  unfold process_posts at h
  cases hl : tryLoad env.decode env.jsonLoad file encodings with
  | jsonError => simp [hl] at h
  | decodeExhausted => simp [hl] at h
  | ok posts =>
      rw [hl] at h
      dsimp only at h
      unfold processLoaded at h
      cases he : seqMap (enrichPost env) posts with
      | error e => simp [he] at h
      | ok enriched =>
          rw [he] at h
          dsimp only at h
          cases hu : get_unified_tags env enriched with
          | error e => simp [hu] at h
          | ok u =>
              rw [hu] at h
              cases u with
              | obj umap =>
                  dsimp only at h
                  refine ⟨posts, enriched, umap, rfl, ?_, ?_, hu, ?_⟩
                  · rw [seqMap_ok_length _ enriched out h,
                      seqMap_ok_length _ posts enriched he]
                  · exact seqMap_ok_length _ posts enriched he
                  · intro i hi hie ho
                    exact ⟨seqMap_ok_get _ posts enriched he i hi hie,
                      seqMap_ok_get _ enriched out h i hie ho⟩
              | str s => simp at h
              | num n => simp at h
              | bool b => simp at h
              | null => simp at h
              | arr xs => simp at h

/-- Witness for C7 at the concrete two-post end-to-end run. -/
theorem process_posts_preserves_order_witness :
    ∃ posts enriched umap,
      tryLoad envOrder.decode envOrder.jsonLoad fileC7 encodings =
        LoadResult.ok posts ∧
      outOrder.length = posts.length ∧
      enriched.length = posts.length ∧
      get_unified_tags envOrder enriched = Except.ok (Json.obj umap) ∧
      (∀ i (hi : i < posts.length) (he : i < enriched.length)
          (ho : i < outOrder.length),
        enrichPost envOrder (posts.get ⟨i, hi⟩) =
          Except.ok (enriched.get ⟨i, he⟩) ∧
        rewritePost umap (enriched.get ⟨i, he⟩) =
          Except.ok (outOrder.get ⟨i, ho⟩)) :=
  process_posts_preserves_order envOrder fileC7 outOrder rfl
